import Mathlib

/-!
Shallow embedding of the feed-state store (`src/store.ts`) of the
hackernews-react repository, together with proofs of the specified
properties of its merge, query-reset, pagination and expiring-storage
logic.
-/

/-- The `Story` record of `store.ts` (`interface Story`).  The `by` field is
named `by_` because `by` is a Lean keyword; `time` is the UNIX creation
timestamp.  JavaScript numbers are modelled as `Int`. -/
structure Story where
  id : Int
  title : String
  url : String
  score : Int
  by_ : String
  time : Int
deriving DecidableEq, Repr

/-- The data fields of the zustand `UIState`: the search query, the two item
lists and the two page cursors. -/
structure UIState where
  searchQuery : String
  stories : List Story
  searchStories : List Story
  page : Int
  searchPage : Int
deriving DecidableEq, Repr

/-- JavaScript `Array.prototype.filter` with the element-index callback, as
used in `addStories`/`addSearchStories`: keeps exactly the elements on which
the predicate (element, index) returns true. -/
def jsFilterIdx (p : Story → Nat → Bool) : List Story → Nat → List Story
  | [], _ => []
  | x :: xs, i => if p x i then x :: jsFilterIdx p xs (i + 1) else jsFilterIdx p xs (i + 1)

/-- The de-duplication step of the merge:
`.filter((story, index, self) => self.findIndex(s => s.id === story.id) === index)`
keeps an element exactly when its index is the first index holding its `id`. -/
def dedupById (l : List Story) : List Story :=
  jsFilterIdx (fun story index => l.findIdx (fun s => s.id == story.id) == index) l 0

/-- The order induced by the sort comparator `(a, b) => b.time - a.time`:
`a` may be placed before `b` exactly when the comparator is `≤ 0`, i.e.
`b.time ≤ a.time` (newest first). -/
def timeGe (a b : Story) : Prop := b.time ≤ a.time

instance : DecidableRel timeGe := fun a b => inferInstanceAs (Decidable (b.time ≤ a.time))

instance : IsTotal Story timeGe := ⟨fun a b => le_total b.time a.time⟩

instance : IsTrans Story timeGe := ⟨fun _ _ _ h1 h2 => le_trans h2 h1⟩

/-- The sorting step `.sort((a, b) => b.time - a.time)`.  JavaScript's
`Array.prototype.sort` is stable, so it is modelled by the stable insertion
sort over the comparator's order. -/
def sortByTimeDesc (l : List Story) : List Story :=
  l.insertionSort timeGe

/-- `setSearchQuery` of `store.ts`: if the new query differs from the current
one, set it, reset `searchPage` to 1 and clear `searchStories`; otherwise do
nothing. -/
def setSearchQuery (query : String) (s : UIState) : UIState :=
  if query ≠ s.searchQuery then
    { s with searchQuery := query, searchPage := 1, searchStories := [] }
  else s

/-- `addStories` of `store.ts`: concatenate the new batch after the existing
stories, de-duplicate by `id` keeping first occurrences, sort by `time`
descending, and replace the `stories` field. -/
def addStories (newStories : List Story) (s : UIState) : UIState :=
  { s with stories := sortByTimeDesc (dedupById (s.stories ++ newStories)) }

/-- `addSearchStories` of `store.ts`: the same pipeline on the
`searchStories` field. -/
def addSearchStories (newStories : List Story) (s : UIState) : UIState :=
  { s with searchStories := sortByTimeDesc (dedupById (s.searchStories ++ newStories)) }

/-- `resetStories` of `store.ts`. -/
def resetStories (s : UIState) : UIState := { s with stories := [] }

/-- `resetSearchStories` of `store.ts`. -/
def resetSearchStories (s : UIState) : UIState := { s with searchStories := [] }

/-- `setPage` of `store.ts`: stores the given page number. -/
def setPage (page : Int) (s : UIState) : UIState := { s with page := page }

/-- `setSearchPage` of `store.ts`: stores the given search page number. -/
def setSearchPage (page : Int) (s : UIState) : UIState := { s with searchPage := page }

/-- Modelled from the spec: the spec's `advancePage(primary)` operation.  The
call sites that drive pagination live in the React components, which are not
part of the provided source; per the spec the driving layer advances the
cursor by calling `setPage` with the current cursor plus one. -/
def advancePage (s : UIState) : UIState := setPage (s.page + 1) s

/-- Modelled from the spec: the spec's `advancePage(search)` operation,
implemented by the driving layer as `setSearchPage` of the current search
cursor plus one. -/
def advanceSearchPage (s : UIState) : UIState := setSearchPage (s.searchPage + 1) s

/-! ### The expiring storage layer (`customStorage` of `store.ts`) -/

/-- `EXPIRATION_TIME` of `store.ts`: 24 hours in milliseconds. -/
def EXPIRATION_TIME : Int := 24 * 60 * 60 * 1000

/-- A JSON value, the result of a successful `JSON.parse`. -/
inductive Json where
  | null
  | bool (b : Bool)
  | num (n : Int)
  | str (s : String)
  | arr (elems : List Json)
  | obj (fields : List (String × Json))

/-- A raw `localStorage` entry: either text that `JSON.parse` accepts
(represented by its parse) or text on which `JSON.parse` throws. -/
inductive RawItem where
  | json (j : Json)
  | invalid (text : String)

/-- The browser's `localStorage`, as a list of key/raw-entry bindings. -/
abbrev LocalStorage := List (String × RawItem)

/-- `localStorage.getItem`: the value bound to `name`, if any. -/
def lsGet (ls : LocalStorage) (name : String) : Option RawItem :=
  ls.lookup name

/-- `localStorage.removeItem`: drop every binding for `name`. -/
def lsRemove (ls : LocalStorage) (name : String) : LocalStorage :=
  ls.filter (fun p => !(p.1 == name))

/-- `localStorage.setItem`: bind `name` to `v`, overwriting any prior
binding. -/
def lsSet (ls : LocalStorage) (name : String) (v : RawItem) : LocalStorage :=
  (name, v) :: lsRemove ls name

/-- A JavaScript exception escaping `customStorage.getItem`:
`JSON.parse` throws a `SyntaxError` on invalid JSON, and destructuring
`null` throws a `TypeError`. -/
inductive JsError where
  | syntaxError
  | typeError
deriving DecidableEq, Repr

/-- JavaScript property access on a parsed JSON value: `undefined` (here
`none`) unless the value is an object carrying the key. -/
def jsProp (j : Json) (key : String) : Option Json :=
  match j with
  | .obj fields => fields.lookup key
  | _ => none

namespace customStorage

/-- `customStorage.getItem` of `store.ts`.  Returns the possibly-updated
storage together with the result (`none` for JavaScript `null`), or the
exception the JavaScript code would throw.  Faithful to the source:
`JSON.parse(item)` is unguarded, so invalid JSON raises, and destructuring
`{ value, timestamp }` out of a parsed `null` raises.  Every entry written by
`setItem` carries a numeric `timestamp`; when the destructured `timestamp` is
not a number the comparison `now - timestamp > EXPIRATION_TIME` is the
JavaScript `NaN` comparison for the non-coercible shapes, which is false, so
the model takes the non-expired branch there. -/
def getItem (ls : LocalStorage) (now : Int) (name : String) :
    Except JsError (LocalStorage × Option Json) :=
  match lsGet ls name with
  | none => .ok (ls, none)
  | some (.invalid _) => .error .syntaxError
  | some (.json .null) => .error .typeError
  | some (.json j) =>
    match jsProp j "timestamp" with
    | some (.num t) =>
      if now - t > EXPIRATION_TIME then
        .ok (lsRemove ls name, none)
      else
        .ok (ls, jsProp j "value")
    | _ => .ok (ls, jsProp j "value")

/-- `customStorage.setItem` of `store.ts`: store
`JSON.stringify({ value, timestamp: now })` under `name`; its parse is the
two-field object recorded here. -/
def setItem (ls : LocalStorage) (now : Int) (name : String) (value : Json) :
    LocalStorage :=
  lsSet ls name (.json (.obj [("value", value), ("timestamp", .num now)]))

/-- `customStorage.removeItem` of `store.ts`. -/
def removeItem (ls : LocalStorage) (name : String) : LocalStorage :=
  lsRemove ls name

end customStorage

/-! ### Auxiliary definitions for stating the claims -/

/-- Modelled from the spec: the whitespace trimming used by the
active-collection selection (the rendering layer, not part of the provided
source).  Referenced here only to state that `setSearchQuery` compares raw,
untrimmed query strings. -/
def jsTrim (s : String) : String :=
  String.mk (((s.data.dropWhile Char.isWhitespace).reverse.dropWhile Char.isWhitespace).reverse)

/-- The operations of the feed-state engine as named by the spec:
query change, merge into either collection, explicit clear of either
collection, and cursor advance for either mode. -/
inductive FeedAct where
  | setQuery (q : String)
  | mergePrimary (batch : List Story)
  | mergeSearch (batch : List Story)
  | clearPrimary
  | clearSearch
  | advancePrimary
  | advanceSearch

/-- Interpretation of a feed-state operation by the store's functions. -/
def applyAct : FeedAct -> UIState -> UIState
  | .setQuery q, s => setSearchQuery q s
  | .mergePrimary X, s => addStories X s
  | .mergeSearch X, s => addSearchStories X s
  | .clearPrimary, s => resetStories s
  | .clearSearch, s => resetSearchStories s
  | .advancePrimary, s => advancePage s
  | .advanceSearch, s => advanceSearchPage s

/-- Concrete story with id 1 and score 10, the pre-existing item of the
spec's first-occurrence-wins example. -/
def exA : Story := { id := 1, title := "alpha", url := "", score := 10, by_ := "u", time := 100 }

/-- Concrete story sharing id 1 but with score 99, the freshly fetched
duplicate of the spec's first-occurrence-wins example. -/
def exA99 : Story := { id := 1, title := "alpha2", url := "", score := 99, by_ := "z", time := 150 }

/-- Concrete story with id 2. -/
def exB : Story := { id := 2, title := "beta", url := "", score := 5, by_ := "v", time := 200 }

/-- Concrete story with id 3, whose `time` ties with `exB`. -/
def exC : Story := { id := 3, title := "gamma", url := "", score := 7, by_ := "w", time := 200 }

/-- Concrete state holding only `exA` in the primary collection. -/
def exState : UIState :=
  { searchQuery := "", stories := [exA], searchStories := [], page := 1, searchPage := 1 }

/-- Concrete state with current query "foo" and nonempty collections and
cursors. -/
def exStateFoo : UIState :=
  { searchQuery := "foo", stories := [exA], searchStories := [exB], page := 3, searchPage := 4 }

/-! ### Properties of the de-duplication step -/

theorem jsFilterIdx_shift (full : List Story) (a : Story) :
    ∀ (l : List Story) (k : Nat),
    jsFilterIdx (fun st i => (a :: full).findIdx (fun s => s.id == st.id) == i) l (k + 1)
      = (jsFilterIdx (fun st i => full.findIdx (fun s => s.id == st.id) == i) l k).filter
          (fun st => !(st.id == a.id)) := by
  intro l
  induction l with
  | nil => intro k; rfl
  | cons x xs ih =>
    intro k
    simp only [jsFilterIdx]
    have hhead : (a :: full).findIdx (fun s => s.id == x.id)
        = bif a.id == x.id then 0 else full.findIdx (fun s => s.id == x.id) + 1 :=
      List.findIdx_cons _ _ _
    simp only [hhead]
    by_cases hid : a.id = x.id
    · have hxid : (x.id == a.id) = true := beq_iff_eq.mpr hid.symm
      simp only [beq_iff_eq.mpr hid, cond_true]
      have h0 : ((0 : Nat) == k + 1) = false := by
        rw [beq_eq_false_iff_ne]; omega
      rw [h0]
      simp only [Bool.false_eq_true, if_false]
      rw [ih (k + 1)]
      split
      · simp [List.filter_cons, hxid]
      · rfl
    · have hxid : (x.id == a.id) = false := by
        rw [beq_eq_false_iff_ne]; exact fun h => hid h.symm
      have haid : (a.id == x.id) = false := by
        rw [beq_eq_false_iff_ne]; exact hid
      rw [haid]
      simp only [cond_false]
      by_cases hk : full.findIdx (fun s => s.id == x.id) = k
      · simp only [hk, beq_self_eq_true, if_true]
        rw [ih (k + 1)]
        simp [List.filter_cons, hxid]
      · have h1 : ((full.findIdx (fun s => s.id == x.id) + 1) == k + 1) = false := by
          rw [beq_eq_false_iff_ne]; omega
        have h2 : ((full.findIdx (fun s => s.id == x.id)) == k) = false := by
          rw [beq_eq_false_iff_ne]; exact hk
        simp only [h1, h2, Bool.false_eq_true, if_false]
        exact ih (k + 1)

theorem dedupById_nil : dedupById [] = [] := rfl

theorem dedupById_cons (a : Story) (l : List Story) :
    dedupById (a :: l) = a :: (dedupById l).filter (fun st => !(st.id == a.id)) := by
  show jsFilterIdx _ (a :: l) 0 = _
  simp only [jsFilterIdx]
  have hhead : (a :: l).findIdx (fun s => s.id == a.id)
      = bif a.id == a.id then 0 else l.findIdx (fun s => s.id == a.id) + 1 :=
    List.findIdx_cons _ _ _
  simp only [hhead]
  simp only [beq_self_eq_true, cond_true, if_true]
  exact congrArg (a :: ·) (jsFilterIdx_shift l a l 0)

theorem mem_dedupById {l : List Story} {x : Story} :
    x ∈ dedupById l ↔ l.find? (fun s => s.id == x.id) = some x := by
  induction l with
  | nil => simp [dedupById_nil]
  | cons a l ih =>
    rw [dedupById_cons]
    by_cases hid : x.id = a.id
    · rw [List.find?_cons_of_pos (p := fun s : Story => s.id == x.id) _ (beq_iff_eq.mpr hid.symm)]
      constructor
      · intro hx
        rcases List.mem_cons.mp hx with rfl | hmem
        · rfl
        · have := List.of_mem_filter hmem
          rw [Bool.not_eq_eq_eq_not, Bool.not_true, beq_eq_false_iff_ne] at this
          exact absurd hid this
      · intro hf
        exact (Option.some_injective _ hf) ▸ List.mem_cons_self a _
    · rw [List.find?_cons_of_neg (p := fun s : Story => s.id == x.id) _ (by simpa using fun h : a.id = x.id => hid h.symm)]
      rw [← ih]
      constructor
      · intro hx
        rcases List.mem_cons.mp hx with rfl | hmem
        · exact absurd rfl hid
        · exact (List.mem_filter.mp hmem).1
      · intro hx
        refine List.mem_cons_of_mem a (List.mem_filter.mpr ⟨hx, ?_⟩)
        rw [Bool.not_eq_eq_eq_not, Bool.not_true, beq_eq_false_iff_ne]
        exact hid

theorem dedupById_pairwise_ne (l : List Story) :
    (dedupById l).Pairwise (fun a b => ¬ a.id = b.id) := by
  induction l with
  | nil => rw [dedupById_nil]; exact List.Pairwise.nil
  | cons a l ih =>
    rw [dedupById_cons]
    refine List.Pairwise.cons ?_ (List.Pairwise.sublist (List.filter_sublist _) ih)
    intro b hb hab
    have := List.of_mem_filter hb
    rw [Bool.not_eq_eq_eq_not, Bool.not_true, beq_eq_false_iff_ne] at this
    exact this hab.symm

theorem filter_ne_dedupById (v : Int) (l : List Story) :
    (dedupById l).filter (fun st => !(st.id == v))
      = dedupById (l.filter (fun st => !(st.id == v))) := by
  induction l with
  | nil => rfl
  | cons a l ih =>
    rw [dedupById_cons, List.filter_cons, List.filter_cons]
    by_cases hav : a.id = v
    · have hfa : (!(a.id == v)) = false := by simp [hav]
      simp only [hfa, Bool.false_eq_true, if_false]
      rw [← ih, List.filter_filter]
      refine List.filter_congr ?_
      intro b _
      by_cases hb : b.id = v
      · simp [hb, hav]
      · simp [hb, hav, fun h : b.id = a.id => hb (h.trans hav)]
    · have hfa : (!(a.id == v)) = true := by simp [hav]
      simp only [hfa, if_true]
      rw [dedupById_cons, ← ih, List.filter_filter, List.filter_filter]
      refine congrArg (a :: ·) (List.filter_congr ?_)
      intro b _
      exact Bool.and_comm _ _

theorem dedupById_append_absorb :
    ∀ (D X : List Story), D.Pairwise (fun a b => ¬ a.id = b.id) →
      (∀ x ∈ X, ∃ y ∈ D, y.id = x.id) → dedupById (D ++ X) = D := by
  intro D
  induction D with
  | nil =>
    intro X _ hsub
    cases X with
    | nil => rfl
    | cons x xs => simpa using hsub x (List.mem_cons_self x xs)
  | cons d D' ih =>
    intro X hnd hsub
    rw [List.cons_append, dedupById_cons, filter_ne_dedupById, List.filter_append]
    have hD' : D'.filter (fun st => !(st.id == d.id)) = D' := by
      rw [List.filter_eq_self]
      intro b hb
      have := (List.pairwise_cons.mp hnd).1 b hb
      simpa using fun h : b.id = d.id => this h.symm
    rw [hD']
    refine congrArg (d :: ·) (ih _ (List.pairwise_cons.mp hnd).2 ?_)
    intro x hx
    have hxX : x ∈ X := (List.mem_filter.mp hx).1
    have hxd : ¬ x.id = d.id := by
      have := (List.mem_filter.mp hx).2
      simpa using this
    obtain ⟨y, hy, hyid⟩ := hsub x hxX
    rcases List.mem_cons.mp hy with rfl | hyD'
    · exact absurd hyid.symm hxd
    · exact ⟨y, hyD', hyid⟩

/-! ### Properties of the full merge pipeline -/

theorem mem_sortByTimeDesc {l : List Story} {x : Story} :
    x ∈ sortByTimeDesc l ↔ x ∈ l :=
  List.mem_insertionSort timeGe

theorem sortByTimeDesc_pairwise_ne (l : List Story)
    (h : l.Pairwise (fun a b => ¬ a.id = b.id)) :
    (sortByTimeDesc l).Pairwise (fun a b => ¬ a.id = b.id) :=
  ((List.perm_insertionSort timeGe l).pairwise_iff
    (fun hxy h => hxy h.symm)).mpr h

theorem merged_pairwise_ne (old new : List Story) :
    (sortByTimeDesc (dedupById (old ++ new))).Pairwise (fun a b => ¬ a.id = b.id) :=
  sortByTimeDesc_pairwise_ne _ (dedupById_pairwise_ne _)

theorem ids_covered (old new : List Story) :
    ∀ x ∈ new, ∃ y ∈ sortByTimeDesc (dedupById (old ++ new)), y.id = x.id := by
  intro x hx
  have hex : ∃ y, (old ++ new).find? (fun s => s.id == x.id) = some y := by
    cases hfind : (old ++ new).find? (fun s => s.id == x.id) with
    | some y => exact ⟨y, rfl⟩
    | none =>
      have := List.find?_eq_none.mp hfind x (List.mem_append_right old hx)
      simp at this
  obtain ⟨y, hy⟩ := hex
  have hyid : y.id = x.id := by simpa using List.find?_some hy
  have hymem : y ∈ dedupById (old ++ new) := by
    rw [mem_dedupById, hyid]
    exact hy
  exact ⟨y, mem_sortByTimeDesc.mpr hymem, hyid⟩

theorem merge_idem (old new : List Story) :
    sortByTimeDesc (dedupById (sortByTimeDesc (dedupById (old ++ new)) ++ new))
      = sortByTimeDesc (dedupById (old ++ new)) := by
  rw [dedupById_append_absorb _ _ (merged_pairwise_ne old new) (ids_covered old new)]
  exact List.Sorted.insertionSort_eq (List.sorted_insertionSort timeGe _)

/-! ### Properties of the expiring storage -/

theorem lsGet_lsRemove (ls : LocalStorage) (n : String) :
    lsGet (lsRemove ls n) n = none := by
  induction ls with
  | nil => rfl
  | cons p ls ih =>
    obtain ⟨k, val⟩ := p
    by_cases h : k = n
    · simpa [lsRemove, List.filter_cons, h] using ih
    · have hb : (n == k) = false := by
        rw [beq_eq_false_iff_ne]; exact fun hh => h hh.symm
      simp only [lsRemove, List.filter_cons] at ih ⊢
      simp [h, lsGet, List.lookup, hb]
      simpa [lsGet] using ih

theorem getItem_setItem (ls : LocalStorage) (n : String) (v : Json) (T now : Int) :
    customStorage.getItem (customStorage.setItem ls T n v) now n
      = if now - T > EXPIRATION_TIME then
          .ok (lsRemove (customStorage.setItem ls T n v) n, none)
        else
          .ok (customStorage.setItem ls T n v, some v) := by
  have hget : lsGet (lsSet ls n (.json (.obj [("value", v), ("timestamp", .num T)]))) n
      = some (.json (.obj [("value", v), ("timestamp", .num T)])) := by
    simp [lsSet, lsGet, List.lookup]
  by_cases hc : now - T > EXPIRATION_TIME
  · simp [customStorage.getItem, customStorage.setItem, hget, jsProp, List.lookup, hc]
  · simp [customStorage.getItem, customStorage.setItem, hget, jsProp, List.lookup, hc]

/-- Claim C6: for a key written at time `T`, with the TTL constant equal to
86 400 000 ms, a read at `T + 86 400 001` returns absent and removes the
entry (so any subsequent read is also absent), while a read at
`T + 86 399 999` returns the original value unchanged; the expiry test is
strict and only performed on read. -/
theorem claim_C6_cache_expiry (ls : LocalStorage) (name : String) (v : Json) (T t2 : Int) :
    EXPIRATION_TIME = 86400000 ∧
    customStorage.getItem (customStorage.setItem ls T name v) (T + 86400001) name
      = .ok (lsRemove (customStorage.setItem ls T name v) name, none) ∧
    customStorage.getItem (lsRemove (customStorage.setItem ls T name v) name) t2 name
      = .ok (lsRemove (customStorage.setItem ls T name v) name, none) ∧
    customStorage.getItem (customStorage.setItem ls T name v) (T + 86399999) name
      = .ok (customStorage.setItem ls T name v, some v) := by
  refine ⟨rfl, ?_, ?_, ?_⟩
  · rw [getItem_setItem, if_pos (by simp [EXPIRATION_TIME])]
  · simp [customStorage.getItem, lsGet_lsRemove]
  · rw [getItem_setItem, if_neg (by simp [EXPIRATION_TIME])]

/-- Claim C7: a value written through the expiring store and read back under
the same key within the TTL is returned unchanged (the write/read pair
round-trips through the envelope and the JSON representation). -/
theorem claim_C7_roundtrip (ls : LocalStorage) (name : String) (v : Json) (T d : Int)
    (h : d ≤ EXPIRATION_TIME) :
    customStorage.getItem (customStorage.setItem ls T name v) (T + d) name
      = .ok (customStorage.setItem ls T name v, some v) := by
  rw [getItem_setItem, if_neg (by omega)]

/-- Witness for claim C7 at a concrete store, key, value and times. -/
theorem claim_C7_roundtrip_witness :
    customStorage.getItem (customStorage.setItem [] 1000 "ui-store" (Json.num 42))
        (1000 + 5) "ui-store"
      = .ok (customStorage.setItem [] 1000 "ui-store" (Json.num 42), some (Json.num 42)) :=
  claim_C7_roundtrip [] "ui-store" (Json.num 42) 1000 5 (by decide)

/-- Claim C8 evaluation: the code, not the claim.  `customStorage.getItem`
calls `JSON.parse` unguarded, so on a stored entry that is not valid JSON the
read raises a `SyntaxError` to the caller instead of treating the entry as
absent. -/
theorem claim_C8_malformed_read_raises :
    customStorage.getItem [("ui-store", RawItem.invalid "not valid json")] 0 "ui-store"
      = .error JsError.syntaxError := rfl

/-! ### Claims about the merge -/

theorem find?_append_left {p : Story → Bool} {l₁ : List Story} (l₂ : List Story) {y : Story}
    (h : l₁.find? p = some y) : (l₁ ++ l₂).find? p = some y := by
  induction l₁ with
  | nil => simp at h
  | cons a l ih =>
    by_cases ha : p a
    · rw [List.find?_cons_of_pos _ ha] at h
      rw [List.cons_append, List.find?_cons_of_pos _ ha]
      exact h
    · rw [List.find?_cons_of_neg _ ha] at h
      rw [List.cons_append, List.find?_cons_of_neg _ ha]
      exact ih h

/-- Claim C1: the merge concatenates the batch after the existing items and
keeps exactly the first occurrence of each id in the concatenated order
(membership characterization), so a pre-existing item that is the first of
its id survives the merge with its fields intact and is the unique item
carrying that id afterwards. -/
theorem claim_C1_first_occurrence_wins (s : UIState) (batch : List Story) (a : Story)
    (ha : s.stories.find? (fun t => t.id == a.id) = some a) :
    (∀ x : Story, x ∈ (addStories batch s).stories ↔
        (s.stories ++ batch).find? (fun t => t.id == x.id) = some x) ∧
    a ∈ (addStories batch s).stories ∧
    ∀ b ∈ (addStories batch s).stories, b.id = a.id → b = a := by
  have hchar : ∀ x : Story, x ∈ (addStories batch s).stories ↔
      (s.stories ++ batch).find? (fun t => t.id == x.id) = some x := by
    intro x
    show x ∈ sortByTimeDesc (dedupById (s.stories ++ batch)) ↔ _
    rw [mem_sortByTimeDesc, mem_dedupById]
  have hmem : a ∈ (addStories batch s).stories :=
    (hchar a).mpr (find?_append_left batch ha)
  refine ⟨hchar, hmem, ?_⟩
  intro b hb hid
  have hfb := (hchar b).mp hb
  rw [hid] at hfb
  have := (find?_append_left batch ha).symm.trans hfb
  exact (Option.some_injective _ this).symm

/-- Witness for claim C1: with pre-existing item of id 1 and score 10 and a
merged batch holding a different story with the same id 1 and score 99, the
pre-existing item survives and is the unique item with id 1. -/
theorem claim_C1_first_occurrence_wins_witness :
    (∀ x : Story, x ∈ (addStories [exA99] exState).stories ↔
        (exState.stories ++ [exA99]).find? (fun t => t.id == x.id) = some x) ∧
    exA ∈ (addStories [exA99] exState).stories ∧
    ∀ b ∈ (addStories [exA99] exState).stories, b.id = exA.id → b = exA :=
  claim_C1_first_occurrence_wins exState [exA99] exA (by decide)

/-- Claim C2: merging the identical batch twice yields the same state as
merging it once (for both collections), and after any merge no two items of
the merged collection share an id. -/
theorem claim_C2_idempotent_merge_unique_ids (s : UIState) (X : List Story) :
    addStories X (addStories X s) = addStories X s ∧
    addSearchStories X (addSearchStories X s) = addSearchStories X s ∧
    ((addStories X s).stories).Pairwise (fun a b => ¬ a.id = b.id) ∧
    ((addSearchStories X s).searchStories).Pairwise (fun a b => ¬ a.id = b.id) := by
  refine ⟨?_, ?_, merged_pairwise_ne s.stories X, merged_pairwise_ne s.searchStories X⟩
  · show ({ addStories X s with
        stories := sortByTimeDesc (dedupById ((addStories X s).stories ++ X)) } : UIState)
      = addStories X s
    have : (addStories X s).stories = sortByTimeDesc (dedupById (s.stories ++ X)) := rfl
    rw [this, merge_idem]
    rfl
  · show ({ addSearchStories X s with
        searchStories :=
          sortByTimeDesc (dedupById ((addSearchStories X s).searchStories ++ X)) } : UIState)
      = addSearchStories X s
    have : (addSearchStories X s).searchStories
        = sortByTimeDesc (dedupById (s.searchStories ++ X)) := rfl
    rw [this, merge_idem]
    rfl

/-- Claim C3: after every merge the resulting list is pairwise (hence
adjacent-pairwise) sorted by `time` descending, and any two items with equal
`time` keep the relative order the de-duplication step produced (the sort is
stable). -/
theorem claim_C3_sorted_newest_first_stable (s : UIState) (X : List Story) :
    ((addStories X s).stories).Pairwise (fun a b => b.time ≤ a.time) ∧
    ((addSearchStories X s).searchStories).Pairwise (fun a b => b.time ≤ a.time) ∧
    (∀ a b : Story, a.time = b.time → [a, b].Sublist (dedupById (s.stories ++ X)) →
        [a, b].Sublist (addStories X s).stories) ∧
    (∀ a b : Story, a.time = b.time → [a, b].Sublist (dedupById (s.searchStories ++ X)) →
        [a, b].Sublist (addSearchStories X s).searchStories) := by
  refine ⟨List.sorted_insertionSort timeGe _, List.sorted_insertionSort timeGe _, ?_, ?_⟩
  · intro a b hab hsub
    exact List.pair_sublist_insertionSort (le_of_eq hab.symm) hsub
  · intro a b hab hsub
    exact List.pair_sublist_insertionSort (le_of_eq hab.symm) hsub

/-! ### Claims about query changes and pagination -/

/-- Claim C4: `setSearchQuery` with the current query is a no-op; with a
different query it sets the query, clears the search items and resets the
search cursor to 1, leaving the primary items and cursor unchanged. -/
theorem claim_C4_setQuery_reset (s : UIState) (q : String) (h : ¬ q = s.searchQuery) :
    setSearchQuery s.searchQuery s = s ∧
    (setSearchQuery q s).searchQuery = q ∧
    (setSearchQuery q s).searchStories = [] ∧
    (setSearchQuery q s).searchPage = 1 ∧
    (setSearchQuery q s).stories = s.stories ∧
    (setSearchQuery q s).page = s.page := by
  simp [setSearchQuery, h]

/-- Witness for claim C4: from current query "foo", setting query "bar"
clears the search items, resets the search cursor and leaves the primary
side alone. -/
theorem claim_C4_setQuery_reset_witness :
    setSearchQuery exStateFoo.searchQuery exStateFoo = exStateFoo ∧
    (setSearchQuery "bar" exStateFoo).searchQuery = "bar" ∧
    (setSearchQuery "bar" exStateFoo).searchStories = [] ∧
    (setSearchQuery "bar" exStateFoo).searchPage = 1 ∧
    (setSearchQuery "bar" exStateFoo).stories = exStateFoo.stories ∧
    (setSearchQuery "bar" exStateFoo).page = exStateFoo.page :=
  claim_C4_setQuery_reset exStateFoo "bar" (by decide)

/-- Claim C9: the equality test in `setSearchQuery` is on the raw, untrimmed
strings; a new query that differs from the current one only by surrounding
whitespace is not a no-op but replaces the query, clears the search items
and resets the search cursor to 1. -/
theorem claim_C9_raw_untrimmed_comparison (s : UIState) (q : String)
    (h1 : ¬ q = s.searchQuery) (h2 : jsTrim q = jsTrim s.searchQuery) :
    (setSearchQuery q s).searchQuery = q ∧
    (setSearchQuery q s).searchStories = [] ∧
    (setSearchQuery q s).searchPage = 1 := by
  simp [setSearchQuery, h1]

/-- Witness for claim C9: the query "foo " (one trailing blank) differs from
the current "foo" as a raw string but trims to it, and still resets the
search collection. -/
theorem claim_C9_raw_untrimmed_comparison_witness :
    (setSearchQuery "foo " exStateFoo).searchQuery = "foo " ∧
    (setSearchQuery "foo " exStateFoo).searchStories = [] ∧
    (setSearchQuery "foo " exStateFoo).searchPage = 1 :=
  claim_C9_raw_untrimmed_comparison exStateFoo "foo " (by decide) (by decide)

/-- Claim C10: each merge is confined to its target collection: merging into
the primary collection changes neither the search items, the search cursor,
the primary cursor nor the query, and symmetrically for the search
collection. -/
theorem claim_C10_merge_frame (s : UIState) (X : List Story) :
    (addStories X s).searchStories = s.searchStories ∧
    (addStories X s).searchPage = s.searchPage ∧
    (addStories X s).page = s.page ∧
    (addStories X s).searchQuery = s.searchQuery ∧
    (addSearchStories X s).stories = s.stories ∧
    (addSearchStories X s).page = s.page ∧
    (addSearchStories X s).searchPage = s.searchPage ∧
    (addSearchStories X s).searchQuery = s.searchQuery :=
  ⟨rfl, rfl, rfl, rfl, rfl, rfl, rfl, rfl⟩

/-- Claim C5: the spec-level `advancePage` operations increment their mode's
cursor by exactly one, and across every engine operation a cursor either
stays, increments by one, or is reset to 1 — the reset happening only by a
query change to a genuinely different query. -/
theorem claim_C5_cursor_advance_monotonic (s : UIState) (a : FeedAct) :
    (advancePage s).page = s.page + 1 ∧
    (advanceSearchPage s).searchPage = s.searchPage + 1 ∧
    ((applyAct a s).page = s.page ∨ (applyAct a s).page = s.page + 1) ∧
    ((applyAct a s).searchPage = s.searchPage ∨
      (applyAct a s).searchPage = s.searchPage + 1 ∨
      ((applyAct a s).searchPage = 1 ∧
        ∃ q, a = FeedAct.setQuery q ∧ ¬ q = s.searchQuery)) := by
  refine ⟨rfl, rfl, ?_, ?_⟩
  · cases a with
    | setQuery q =>
      by_cases h : q = s.searchQuery <;> simp [applyAct, setSearchQuery, h]
    | mergePrimary X => exact Or.inl rfl
    | mergeSearch X => exact Or.inl rfl
    | clearPrimary => exact Or.inl rfl
    | clearSearch => exact Or.inl rfl
    | advancePrimary => exact Or.inr rfl
    | advanceSearch => exact Or.inl rfl
  · cases a with
    | setQuery q =>
      by_cases h : q = s.searchQuery
      · simp [applyAct, setSearchQuery, h]
      · exact Or.inr (Or.inr ⟨by simp [applyAct, setSearchQuery, h], q, rfl, h⟩)
    | mergePrimary X => exact Or.inl rfl
    | mergeSearch X => exact Or.inl rfl
    | clearPrimary => exact Or.inl rfl
    | clearSearch => exact Or.inl rfl
    | advancePrimary => exact Or.inl rfl
    | advanceSearch => exact Or.inr (Or.inl rfl)
